import Mathlib

/-!
Shallow embedding of the DataGrid `RowsVirtualizer` class
(`src/ts/DataGrid/DataGrid2/Actions/RowsVirtualizer.ts`).

The virtualizer keeps a window of materialized row handles (`rows`),
a row cursor (`rowCursor`) and a fresh-uid counter used to model object
identity of constructed `DataGridRow` handles.  DOM-measured quantities
(tbody offset height, natural row heights, the first row's default top
offset, pre-existing translateY values) are inputs of the model, grouped
in a context structure `Ctx`.  Heights and scroll offsets are rationals
(JS numbers in the source); indices and counters are integers.
-/

/-- A materialized row handle (`DataGridRow`).  `uid` models object
identity: handles constructed by `renderRows` get fresh uids, so a
preserved handle can be distinguished from a destroyed-and-recreated
one. -/
structure DataGridRow where
  index : ℤ
  uid : ℕ
deriving DecidableEq

/-- The DOM/viewport environment of a `RowsVirtualizer` instance:
`rowCount` is `vp.dataTable.getRowCount()`, `offsetHeight` is
`vp.tbodyElement.offsetHeight`, `defaultRowHeight` and `buffer` are the
constructor-initialized fields, `natHeight i` is the natural measured
height (`row.cells[0].htmlElement.offsetHeight`) of the row with index
`i`, `topOffset0` is `rows[0].getDefaultTopOffset()` and
`prevTranslate0` is the pre-existing translateY of the first row element
(read by `getTranslateY` when it was not assigned during the pass). -/
structure Ctx where
  rowCount : ℤ
  offsetHeight : ℚ
  defaultRowHeight : ℚ
  buffer : ℤ
  natHeight : ℤ → ℚ
  topOffset0 : ℚ
  prevTranslate0 : ℚ

/-- The mutable state of a `RowsVirtualizer`: the materialized window
`viewport.rows`, the `rowCursor` field, and the fresh-uid counter. -/
structure Virtualizer where
  rows : List DataGridRow
  rowCursor : ℤ
  nextUid : ℕ
deriving DecidableEq

/-- The freshly constructed virtualizer state: empty window, cursor 0. -/
def initState : Virtualizer := ⟨[], 0, 0⟩

/-- The page size `Math.ceil(vp.tbodyElement.offsetHeight / this.defaultRowHeight)`. -/
def rowsPerPage (C : Ctx) : ℤ := ⌈C.offsetHeight / C.defaultRowHeight⌉

/-- The list of integers `lo, lo+1, ..., lo+n-1`. -/
def intRangeAux (lo : ℤ) : ℕ → List ℤ
  | 0 => []
  | n + 1 => lo :: intRangeAux (lo + 1) n

/-- The list of integers `lo, lo+1, ..., hi` (empty when `hi < lo`),
modelling the loop `for (let i = from; i <= to; ++i)`. -/
def intRange (lo hi : ℤ) : List ℤ := intRangeAux lo (hi + 1 - lo).toNat

/-- Fresh handles for the given indices, with uids counting up from
`u`: models the consecutive `new DataGridRow(vp, i)` constructions. -/
def freshRows : ℕ → List ℤ → List DataGridRow
  | _, [] => []
  | u, i :: rest => ⟨i, u⟩ :: freshRows (u + 1) rest

/-- The rows array after the lazy-anchor step of `renderRows`
(lines 159-164): if the window is empty, a handle for the last row
index is constructed and appended. -/
def lazyRows (C : Ctx) (st : Virtualizer) : List DataGridRow :=
  if st.rows.isEmpty then [⟨C.rowCount - 1, st.nextUid⟩] else st.rows

/-- The uid counter after the lazy-anchor step. -/
def lazyUid (st : Virtualizer) : ℕ :=
  if st.rows.isEmpty then st.nextUid + 1 else st.nextUid

/-- The handle `rows[rows.length - 1]` after the lazy-anchor step; also the
`alwaysLastRow` popped before the destroy loop. -/
def anchorRow (C : Ctx) (st : Virtualizer) : DataGridRow :=
  (lazyRows C st).getLast?.getD ⟨0, 0⟩

/-- The bound `from = Math.min(Math.max(rowCursor - buffer, 0),
vp.dataTable.getRowCount() - rowsPerPage)`. -/
def renderFrom (C : Ctx) (c : ℤ) : ℤ :=
  min (max (c - C.buffer) 0) (C.rowCount - rowsPerPage C)

/-- The bound `to = Math.min(rowCursor + rowsPerPage + buffer,
rows[rows.length - 1].index - 1)`. -/
def renderTo (C : Ctx) (st : Virtualizer) (c : ℤ) : ℤ :=
  min (c + rowsPerPage C + C.buffer) ((anchorRow C st).index - 1)

/-- The method `RowsVirtualizer.renderRows`: lazily create the anchor if the
window is empty, compute `from`/`to`, pop the last handle, destroy the
rest, construct fresh handles for `from..to` and re-append the popped
last handle. -/
def renderRows (C : Ctx) (st : Virtualizer) (rowCursor : ℤ) : Virtualizer :=
  { rows :=
      freshRows (lazyUid st)
        (intRange (renderFrom C rowCursor) (renderTo C st rowCursor)) ++
        [anchorRow C st]
    rowCursor := st.rowCursor
    nextUid :=
      lazyUid st +
        (intRange (renderFrom C rowCursor) (renderTo C st rowCursor)).length }

/-- The handles destroyed by `renderRows` (the loop at lines 177-179):
every handle of the (lazily extended) window except the popped last
one. -/
def renderRowsDestroyed (C : Ctx) (st : Virtualizer) : List DataGridRow :=
  (lazyRows C st).dropLast

/-- The layout data assigned to one materialized row by
`adjustRowHeights`: the rendered height (`style.height`), the common
vertical translation of the row's cells (0 when the cell transforms are
reset/untouched), and the row element's translateY (`none` when the
pass does not assign it). -/
structure RowLayout where
  index : ℤ
  height : ℚ
  cellTranslate : ℚ
  translateY : Option ℚ
deriving DecidableEq

/-- The rendered height assigned by the first pass of
`adjustRowHeights` to the row with index `idx`, given scroll offset `s`
and cursor `c`: rows above the cursor are pinned to the default height;
rows below keep their measured cell height; the cursor row is shrunk by
the linear-interpolation formula of lines 238-242 when its measured
height exceeds the default. -/
def adjustedHeight (C : Ctx) (s : ℚ) (c : ℤ) (idx : ℤ) : ℚ :=
  if idx < c then C.defaultRowHeight
  else if c < idx then C.natHeight idx
  else if C.defaultRowHeight < C.natHeight idx then
    ((⌊C.natHeight idx -
        (C.natHeight idx - C.defaultRowHeight) *
          (s / C.defaultRowHeight - (c : ℚ))⌋ : ℤ) : ℚ)
  else C.natHeight idx

/-- The cell translateY assigned by `adjustRowHeights` (lines 246-251):
`newHeight - cellHeight` for the cursor row when its measured height
exceeds the default, 0 (reset/untouched) otherwise. -/
def cellTranslateOf (C : Ctx) (s : ℚ) (c : ℤ) (idx : ℤ) : ℚ :=
  if idx = c ∧ C.defaultRowHeight < C.natHeight idx then
    adjustedHeight C s c idx - C.natHeight idx
  else 0

/-- The row-element translateY assigned by the second pass of
`adjustRowHeights` (lines 255-269) to the row at position `i`, where
`hs` is the list of heights assigned by the first pass: positions
`1..n-2` get the accumulated offset; the last position gets the
previous row's offset plus height when the previous row's index is
adjacent; other positions are not assigned. -/
def rowTranslate (C : Ctx) (hs : List ℚ) (rows : List DataGridRow) (i : ℕ) :
    Option ℚ :=
  if 1 ≤ i ∧ i + 1 < rows.length then
    some (C.topOffset0 + (hs.take i).sum)
  else if i + 1 = rows.length ∧ 2 ≤ rows.length ∧
      (rows.getD (rows.length - 2) ⟨0, 0⟩).index + 1 =
        (rows.getD (rows.length - 1) ⟨0, 0⟩).index then
    some (if 3 ≤ rows.length then C.topOffset0 + (hs.take (rows.length - 1)).sum
          else C.prevTranslate0 + hs.headD 0)
  else none

/-- The method `RowsVirtualizer.adjustRowHeights`: the pass reads
`rows[0].getDefaultTopOffset()` before anything else, so on an empty
window the first-row access is out of bounds (modelled as `none`);
otherwise it assigns each materialized row its rendered height, cell
translation and (for interior rows and an adjacent last row) its
vertical offset. -/
def adjustRowHeights (C : Ctx) (s : ℚ) (c : ℤ) (rows : List DataGridRow) :
    Option (List RowLayout) :=
  if rows.isEmpty then none
  else
    some ((List.range rows.length).map fun i =>
      { index := (rows.getD i ⟨0, 0⟩).index
        height := adjustedHeight C s c (rows.getD i ⟨0, 0⟩).index
        cellTranslate := cellTranslateOf C s c (rows.getD i ⟨0, 0⟩).index
        translateY :=
          rowTranslate C (rows.map fun r => adjustedHeight C s c r.index)
            rows i })

/-- The method `RowsVirtualizer.scroll`: read the pre-call scroll offset `s`,
compute the new cursor, re-render the window if the cursor moved, store
the new cursor, run `adjustRowHeights` (which observes the *new* cursor
and the post-render reported offset `reported`), and finally restore
the scroll offset to the pre-call value if the reported offset
decreased below it.  Returns the new state, the final scroll offset and
the layout assignment, or `none` when `adjustRowHeights` faults on an
empty window. -/
def scroll (C : Ctx) (st : Virtualizer) (s reported : ℚ) :
    Option (Virtualizer × ℚ × List RowLayout) :=
  let c := ⌊s / C.defaultRowHeight⌋
  let st1 := if st.rowCursor ≠ c then renderRows C st c else st
  let st2 : Virtualizer := { st1 with rowCursor := c }
  (adjustRowHeights C reported c st2.rows).map
    (fun ls => (st2, (if reported < s then s else reported), ls))

/-- The method `RowsVirtualizer.initialRender`: reflow (geometry already reflected
in `C`), render rows at the stored cursor, then adjust row heights at
scroll offset `s`. -/
def initialRender (C : Ctx) (st : Virtualizer) (s : ℚ) :
    Option (Virtualizer × List RowLayout) :=
  (adjustRowHeights C s (renderRows C st st.rowCursor).rowCursor
      (renderRows C st st.rowCursor).rows).map
    (fun ls => (renderRows C st st.rowCursor, ls))

/-- A sequence of `scroll` calls, each given its pre-call scroll offset
and the offset reported by the surface after rendering. -/
def scrollSeq (C : Ctx) : Virtualizer → List (ℚ × ℚ) → Option Virtualizer
  | st, [] => some st
  | st, (s, r) :: evs =>
    match scroll C st s r with
    | none => none
    | some (st', _, _) => scrollSeq C st' evs

/-- Clamping of `x` to `[lo, hi]`, as used by the specification's
`from = clamp(cursor - buffer, 0, totalRowCount - rowsPerPage)`
invariant (`min`/`max` composition, the upper bound applied last). -/
def clamp (x lo hi : ℤ) : ℤ := min (max x lo) hi

/-! ### Basic lemmas about `intRange` and `freshRows` -/

theorem intRangeAux_length (lo : ℤ) (n : ℕ) : (intRangeAux lo n).length = n := by
  induction n generalizing lo with
  | zero => rfl
  | succ n ih => simp [intRangeAux, ih]

theorem mem_intRangeAux {x lo : ℤ} {n : ℕ} :
    x ∈ intRangeAux lo n ↔ lo ≤ x ∧ x < lo + n := by
  induction n generalizing lo with
  | zero => simp [intRangeAux]
  | succ n ih =>
    simp only [intRangeAux, List.mem_cons, ih]
    constructor
    · rintro (rfl | ⟨h1, h2⟩) <;> constructor <;> omega
    · rintro ⟨h1, h2⟩
      rcases eq_or_lt_of_le h1 with rfl | h1
      · exact Or.inl rfl
      · exact Or.inr ⟨by omega, by omega⟩

theorem mem_intRange {x lo hi : ℤ} : x ∈ intRange lo hi ↔ lo ≤ x ∧ x ≤ hi := by
  unfold intRange
  rw [mem_intRangeAux]
  omega

theorem intRange_length (lo hi : ℤ) :
    (intRange lo hi).length = (hi + 1 - lo).toNat := intRangeAux_length _ _

theorem intRangeAux_chain (lo : ℤ) (n : ℕ) :
    List.Chain' (fun a b : ℤ => b = a + 1) (intRangeAux lo n) := by
  induction n generalizing lo with
  | zero => exact List.chain'_nil
  | succ n ih =>
    cases n with
    | zero => simp [intRangeAux]
    | succ m =>
      exact List.Chain'.cons rfl (ih (lo + 1))

theorem intRange_chain (lo hi : ℤ) :
    List.Chain' (fun a b : ℤ => b = a + 1) (intRange lo hi) :=
  intRangeAux_chain _ _

theorem intRangeAux_head (lo : ℤ) (n : ℕ) (h : 0 < n) :
    (intRangeAux lo n).head? = some lo := by
  cases n with
  | zero => omega
  | succ m => rfl

theorem intRange_head {lo hi : ℤ} (h : lo ≤ hi) :
    (intRange lo hi).head? = some lo := by
  apply intRangeAux_head
  omega

theorem intRangeAux_getLast (lo : ℤ) (n : ℕ) (h : 0 < n) :
    (intRangeAux lo n).getLast? = some (lo + n - 1) := by
  induction n generalizing lo with
  | zero => omega
  | succ n ih =>
    cases n with
    | zero => simp [intRangeAux]
    | succ m =>
      have h2 := ih (lo + 1) (Nat.succ_pos m)
      rw [show intRangeAux lo (m + 1 + 1) =
            lo :: (lo + 1) :: intRangeAux (lo + 1 + 1) m from rfl]
      rw [show intRangeAux (lo + 1) (m + 1) =
            (lo + 1) :: intRangeAux (lo + 1 + 1) m from rfl] at h2
      rw [List.getLast?_cons_cons, h2]
      congr 1
      push_cast
      ring

theorem intRange_getLast {lo hi : ℤ} (h : lo ≤ hi) :
    (intRange lo hi).getLast? = some hi := by
  unfold intRange
  rw [intRangeAux_getLast lo _ (by omega)]
  congr 1
  omega

theorem intRange_eq_nil {lo hi : ℤ} (h : hi < lo) : intRange lo hi = [] := by
  unfold intRange
  have : (hi + 1 - lo).toNat = 0 := by omega
  rw [this]
  rfl

theorem freshRows_map_index (u : ℕ) (l : List ℤ) :
    (freshRows u l).map DataGridRow.index = l := by
  induction l generalizing u with
  | nil => rfl
  | cons i rest ih => simp [freshRows, ih]

theorem freshRows_length (u : ℕ) (l : List ℤ) :
    (freshRows u l).length = l.length := by
  induction l generalizing u with
  | nil => rfl
  | cons i rest ih => simp [freshRows, ih]

/-! ### Structural lemmas about `renderRows` -/

theorem lazyRows_ne_nil (C : Ctx) (st : Virtualizer) : lazyRows C st ≠ [] := by
  unfold lazyRows
  split
  · simp
  · next h => simpa using h

theorem getLast_lazyRows (C : Ctx) (st : Virtualizer) :
    (lazyRows C st).getLast? = some (anchorRow C st) := by
  unfold anchorRow
  cases h : (lazyRows C st).getLast? with
  | none => exact absurd (List.getLast?_eq_none_iff.mp h) (lazyRows_ne_nil C st)
  | some r => rfl

theorem anchorRow_of_ne_nil (C : Ctx) (st : Virtualizer) (r : DataGridRow)
    (h : st.rows.getLast? = some r) : anchorRow C st = r := by
  have hne : ¬st.rows.isEmpty = true := by
    intro hemp
    have hnil : st.rows = [] := by simpa using hemp
    rw [hnil] at h
    simp at h
  unfold anchorRow lazyRows
  rw [if_neg hne, h]
  rfl

theorem anchorRow_of_nil (C : Ctx) (st : Virtualizer) (h : st.rows = []) :
    anchorRow C st = ⟨C.rowCount - 1, st.nextUid⟩ := by
  unfold anchorRow lazyRows
  rw [h]
  rfl

/-- The index of the re-appended last handle, under the invariant that
the previous window is empty or ends with the row of index
`totalRowCount - 1`. -/
theorem anchorRow_index (C : Ctx) (st : Virtualizer)
    (h : st.rows = [] ∨ (st.rows.map DataGridRow.index).getLast? =
      some (C.rowCount - 1)) :
    (anchorRow C st).index = C.rowCount - 1 := by
  rcases h with h | h
  · rw [anchorRow_of_nil C st h]
  · rw [List.getLast?_map] at h
    cases hr : st.rows.getLast? with
    | none => rw [hr] at h; simp at h
    | some r =>
      rw [hr] at h
      simp only [Option.map_some'] at h
      rw [anchorRow_of_ne_nil C st r hr]
      simpa using h

theorem renderRows_rows (C : Ctx) (st : Virtualizer) (c : ℤ) :
    (renderRows C st c).rows =
      freshRows (lazyUid st) (intRange (renderFrom C c) (renderTo C st c)) ++
        [anchorRow C st] := rfl

theorem renderRows_map_index (C : Ctx) (st : Virtualizer) (c : ℤ) :
    (renderRows C st c).rows.map DataGridRow.index =
      intRange (renderFrom C c) (renderTo C st c) ++
        [(anchorRow C st).index] := by
  rw [renderRows_rows, List.map_append, freshRows_map_index]
  rfl

theorem renderRows_getLast (C : Ctx) (st : Virtualizer) (c : ℤ) :
    (renderRows C st c).rows.getLast? = some (anchorRow C st) := by
  rw [renderRows_rows, List.getLast?_concat]

theorem renderRows_rows_ne_nil (C : Ctx) (st : Virtualizer) (c : ℤ) :
    (renderRows C st c).rows ≠ [] := by
  rw [renderRows_rows]
  simp

theorem renderRows_dropLast (C : Ctx) (st : Virtualizer) (c : ℤ) :
    (renderRows C st c).rows.dropLast =
      freshRows (lazyUid st) (intRange (renderFrom C c) (renderTo C st c)) := by
  rw [renderRows_rows, List.dropLast_concat]

/-! ### Contiguity of the materialized run -/

/-- The materialized window minus its last (anchor) handle is a
strictly increasing contiguous run of indices `f..t` bracketing the
cursor `c`. -/
def runContiguous (rows : List DataGridRow) (c : ℤ) : Prop :=
  ∃ f t : ℤ, f ≤ c ∧ c ≤ t ∧
    rows.dropLast.map DataGridRow.index = intRange f t ∧
    List.Chain' (fun a b : ℤ => b = a + 1)
      (rows.dropLast.map DataGridRow.index) ∧
    (rows.dropLast.map DataGridRow.index).head? = some f ∧
    (rows.dropLast.map DataGridRow.index).getLast? = some t

/-- A virtualizer state whose window (anchor excluded) is a contiguous
run bracketing the stored cursor. -/
def windowContiguous (st : Virtualizer) : Prop :=
  runContiguous st.rows st.rowCursor

theorem runContiguous_renderRows (C : Ctx) (st : Virtualizer) (c : ℤ)
    (hb : 0 ≤ C.buffer) (hp : 0 ≤ rowsPerPage C) (hc : 0 ≤ c)
    (hcN : c ≤ C.rowCount - 2)
    (ha : st.rows = [] ∨
      (st.rows.map DataGridRow.index).getLast? = some (C.rowCount - 1)) :
    runContiguous (renderRows C st c).rows c := by
  have hidx : (anchorRow C st).index = C.rowCount - 1 := anchorRow_index C st ha
  have hf : renderFrom C c ≤ c :=
    le_trans (min_le_left _ _) (max_le (by omega) hc)
  have ht : c ≤ renderTo C st c := by
    unfold renderTo
    rw [hidx]
    exact le_min (by omega) (by omega)
  refine ⟨renderFrom C c, renderTo C st c, hf, ht, ?_, ?_, ?_, ?_⟩
  · rw [renderRows_dropLast, freshRows_map_index]
  · rw [renderRows_dropLast, freshRows_map_index]
    exact intRange_chain _ _
  · rw [renderRows_dropLast, freshRows_map_index]
    exact intRange_head (hf.trans ht)
  · rw [renderRows_dropLast, freshRows_map_index]
    exact intRange_getLast (hf.trans ht)

/-- Inversion of a successful `scroll` call: the new state stores the
cursor computed from the pre-call offset, its window is the pre-call
window when the cursor did not move and the re-rendered window when it
did, the final offset is the corrected one, and the layout list is the
output of `adjustRowHeights` run on the new window with the new
cursor. -/
theorem scroll_some_elim (C : Ctx) (st : Virtualizer) (s r : ℚ)
    (st' : Virtualizer) (off : ℚ) (ls : List RowLayout)
    (h : scroll C st s r = some (st', off, ls)) :
    st'.rowCursor = ⌊s / C.defaultRowHeight⌋ ∧
    st'.rows = (if st.rowCursor ≠ ⌊s / C.defaultRowHeight⌋ then
        renderRows C st ⌊s / C.defaultRowHeight⌋ else st).rows ∧
    st'.nextUid = (if st.rowCursor ≠ ⌊s / C.defaultRowHeight⌋ then
        renderRows C st ⌊s / C.defaultRowHeight⌋ else st).nextUid ∧
    off = (if r < s then s else r) ∧
    adjustRowHeights C r ⌊s / C.defaultRowHeight⌋ st'.rows = some ls := by
  simp only [scroll] at h
  rcases Option.map_eq_some'.mp h with ⟨ls0, hadj, heq⟩
  have h1 := congrArg Prod.fst heq
  have h23 := congrArg Prod.snd heq
  have h2 := congrArg Prod.fst h23
  have h3 := congrArg Prod.snd h23
  simp only at h1 h2 h3
  subst h1
  subst h2
  subst h3
  exact ⟨rfl, rfl, rfl, rfl, hadj⟩

/-! ### Concrete contexts for the specification scenarios -/

/-- The scenario configuration: `totalRowCount = 1000`,
`visibleHeight = 200`, `defaultRowHeight = 20`, `buffer = 2`, all rows
at their default height. -/
def ctx1000 : Ctx := ⟨1000, 200, 20, 2, fun _ => 20, 0, 0⟩

/-- The state produced by `initialRender` in the scenario
configuration (rows `0..12` plus the anchor row `999`). -/
def st1000 : Virtualizer := ⟨freshRows 1 (intRange 0 12) ++ [⟨999, 0⟩], 0, 14⟩

theorem rowsPerPage_ctx1000 : rowsPerPage ctx1000 = 10 := by
  norm_num [rowsPerPage, ctx1000]

/-! ### C1: the materialized range of `renderRows` -/

/-- C1: for every `renderRows` call on a non-empty window whose last
(anchor) handle has index `totalRowCount - 1`, the materialized window
is the run `from..to` with `from = clamp(cursor - buffer, 0,
totalRowCount - rowsPerPage)` and `to = min(cursor + rowsPerPage +
buffer, anchorIndex - 1)`, followed by the re-appended anchor. -/
theorem renderRows_range_spec (C : Ctx) (st : Virtualizer) (c : ℤ)
    (_hne : st.rows ≠ [])
    (ha : (st.rows.map DataGridRow.index).getLast? = some (C.rowCount - 1)) :
    (renderRows C st c).rows.map DataGridRow.index =
      intRange (clamp (c - C.buffer) 0 (C.rowCount - rowsPerPage C))
        (min (c + rowsPerPage C + C.buffer) (C.rowCount - 1 - 1)) ++
      [C.rowCount - 1] := by
  have hidx : (anchorRow C st).index = C.rowCount - 1 :=
    anchorRow_index C st (Or.inr ha)
  rw [renderRows_map_index]
  unfold renderTo renderFrom clamp
  rw [hidx]

/-- C1 witness: in the scenario configuration, scroll offset 500 gives
cursor 25, and `renderRows` at cursor 25 materializes exactly the
indices `23..37` followed by the anchor 999. -/
theorem renderRows_range_spec_witness :
    ⌊(500 : ℚ) / 20⌋ = 25 ∧
    (renderRows ctx1000 st1000 25).rows.map DataGridRow.index =
      intRange 23 37 ++ [999] := by
  constructor
  · norm_num
  · have h := renderRows_range_spec ctx1000 st1000 25 (by decide) (by decide)
    rw [h]
    simp only [rowsPerPage_ctx1000]
    decide

/-! ### Evaluation of the scenario `initialRender` -/

theorem renderRows_ctx1000_init :
    renderRows ctx1000 initState initState.rowCursor = st1000 := by
  simp only [renderRows, renderFrom, renderTo, rowsPerPage_ctx1000]
  decide

/-- The scenario `initialRender` succeeds and produces `st1000`. -/
theorem initialRender_ctx1000 :
    (initialRender ctx1000 initState 0).map Prod.fst = some st1000 := by
  simp only [initialRender, renderRows_ctx1000_init]
  rw [adjustRowHeights, if_neg (by decide : ¬(st1000.rows.isEmpty = true))]
  simp

/-! ### C5: the `initialRender` scenario -/

/-- C5 counterexample: in the scenario configuration, the window
produced by `initialRender` contains the index 12, which is not in the
claimed set `{0..11} ∪ {999}` (the loop bound `to = cursor +
rowsPerPage + buffer = 12` is inclusive). -/
theorem initialRender_scenario_cex :
    (initialRender ctx1000 initState 0).map
        (fun pr => decide ((12 : ℤ) ∈ pr.1.rows.map DataGridRow.index)) =
      some true ∧
    (12 : ℤ) ∉ intRange 0 11 ++ [(999 : ℤ)] := by
  constructor
  · rcases Option.map_eq_some'.mp initialRender_ctx1000 with ⟨pr, ho, hfst⟩
    rw [ho]
    simp only [Option.map_some']
    rw [show pr.1 = st1000 from hfst]
    decide
  · decide

/-- C5 amended: in the scenario configuration (`totalRowCount = 1000`,
`defaultRowHeight = 20`, `visibleHeight = 200`, `buffer = 2`, so
`rowsPerPage = 10`), `initialRender` on an empty window materializes
exactly the indices `{0..12} ∪ {999}` (the range `from = 0` to
`to = 0 + 10 + 2 = 12` is inclusive, plus the anchor). -/
theorem initialRender_scenario :
    (initialRender ctx1000 initState 0).map
        (fun pr => pr.1.rows.map DataGridRow.index) =
      some (intRange 0 12 ++ [999]) := by
  rcases Option.map_eq_some'.mp initialRender_ctx1000 with ⟨pr, ho, hfst⟩
  rw [ho]
  simp only [Option.map_some']
  rw [show pr.1 = st1000 from hfst]
  decide

/-! ### C9: `renderRows` when the total row count is below one page -/

/-- A configuration with `totalRowCount = 5` smaller than one page
(`rowsPerPage = 10`). -/
def ctx5 : Ctx := ⟨5, 200, 20, 2, fun _ => 20, 0, 0⟩

/-- An anchor-only window for `ctx5`. -/
def st5 : Virtualizer := ⟨[⟨4, 0⟩], 0, 1⟩

theorem rowsPerPage_ctx5 : rowsPerPage ctx5 = 10 := by
  norm_num [rowsPerPage, ctx5]

/-- C9 counterexample: with `totalRowCount = 5 < rowsPerPage = 10`,
`from` is `totalRowCount - rowsPerPage = -5`, not 0, and `renderRows`
constructs a handle with index `-5`, outside `[0, totalRowCount)`. -/
theorem renderRows_small_total_cex :
    (-5 : ℤ) ∈ (renderRows ctx5 st5 0).rows.map DataGridRow.index ∧
    ¬(renderFrom ctx5 0 = 0) ∧
    ¬((0 : ℤ) ≤ -5) := by
  refine ⟨?_, ?_, by decide⟩
  · rw [renderRows_map_index]
    simp only [renderFrom, renderTo, rowsPerPage_ctx5]
    decide
  · simp only [renderFrom, rowsPerPage_ctx5]
    decide

/-- C9 amended: when `totalRowCount < rowsPerPage`, the lower bound
`from` degrades to `totalRowCount - rowsPerPage` (negative, not 0), so
handles with indices outside `[0, totalRowCount)` can be constructed;
`to` still clamps to `anchorIndex - 1`, and when the resulting range is
empty the window contains only the anchor. -/
theorem renderRows_small_total (C : Ctx) (st : Virtualizer) (c : ℤ)
    (hN : C.rowCount < rowsPerPage C)
    (ha : st.rows = [] ∨
      (st.rows.map DataGridRow.index).getLast? = some (C.rowCount - 1)) :
    (renderRows C st c).rows.map DataGridRow.index =
      intRange (C.rowCount - rowsPerPage C)
        (min (c + rowsPerPage C + C.buffer) (C.rowCount - 1 - 1)) ++
      [C.rowCount - 1] ∧
    (min (c + rowsPerPage C + C.buffer) (C.rowCount - 1 - 1) <
        C.rowCount - rowsPerPage C →
      (renderRows C st c).rows.map DataGridRow.index = [C.rowCount - 1]) := by
  have hidx : (anchorRow C st).index = C.rowCount - 1 := anchorRow_index C st ha
  have hfrom : renderFrom C c = C.rowCount - rowsPerPage C := by
    unfold renderFrom
    exact min_eq_right (le_trans (by omega) (le_max_right (c - C.buffer) 0))
  have hmain : (renderRows C st c).rows.map DataGridRow.index =
      intRange (C.rowCount - rowsPerPage C)
        (min (c + rowsPerPage C + C.buffer) (C.rowCount - 1 - 1)) ++
      [C.rowCount - 1] := by
    rw [renderRows_map_index, hfrom]
    unfold renderTo
    rw [hidx]
  refine ⟨hmain, fun hlt => ?_⟩
  rw [hmain, intRange_eq_nil hlt]
  rfl

/-- C9 witness: the amended statement at `totalRowCount = 5`,
`rowsPerPage = 10`, `buffer = 2`, cursor 0: the materialized indices
are `-5..3` followed by the anchor 4. -/
theorem renderRows_small_total_witness :
    (renderRows ctx5 st5 0).rows.map DataGridRow.index =
      intRange (-5) 3 ++ [4] := by
  have h := (renderRows_small_total ctx5 st5 0
    (by rw [rowsPerPage_ctx5]; decide) (Or.inr (by decide))).1
  rw [h]
  simp only [rowsPerPage_ctx5]
  decide

/-! ### C3: anchor persistence -/

theorem anchorIdx_renderRows (C : Ctx) (st : Virtualizer) (c : ℤ)
    (ha : st.rows = [] ∨
      (st.rows.map DataGridRow.index).getLast? = some (C.rowCount - 1)) :
    ((renderRows C st c).rows.map DataGridRow.index).getLast? =
      some (C.rowCount - 1) := by
  rw [renderRows_map_index, List.getLast?_concat, anchorRow_index C st ha]

theorem scroll_preserves_anchorIdx (C : Ctx) (st : Virtualizer) (s r : ℚ)
    (st' : Virtualizer) (off : ℚ) (ls : List RowLayout)
    (h : scroll C st s r = some (st', off, ls))
    (ha : (st.rows.map DataGridRow.index).getLast? = some (C.rowCount - 1)) :
    (st'.rows.map DataGridRow.index).getLast? = some (C.rowCount - 1) := by
  obtain ⟨-, hrows, -, -, -⟩ := scroll_some_elim C st s r st' off ls h
  rw [hrows]
  by_cases hmove : st.rowCursor ≠ ⌊s / C.defaultRowHeight⌋
  · rw [if_pos hmove]
    exact anchorIdx_renderRows C st _ (Or.inr ha)
  · rw [if_neg hmove]
    exact ha

theorem scrollSeq_preserves_anchorIdx (C : Ctx) (evs : List (ℚ × ℚ)) :
    ∀ st st' : Virtualizer, scrollSeq C st evs = some st' →
    (st.rows.map DataGridRow.index).getLast? = some (C.rowCount - 1) →
    (st'.rows.map DataGridRow.index).getLast? = some (C.rowCount - 1) := by
  induction evs with
  | nil =>
    intro st st' h ha
    simp only [scrollSeq] at h
    cases h
    exact ha
  | cons ev evs ih =>
    intro st st' h ha
    rcases ev with ⟨s, r⟩
    simp only [scrollSeq] at h
    cases hsc : scroll C st s r with
    | none => rw [hsc] at h; cases h
    | some out =>
      rcases out with ⟨stm, off, ls⟩
      rw [hsc] at h
      exact ih stm st' h
        (scroll_preserves_anchorIdx C st s r stm off ls hsc ha)

theorem initialRender_fst (C : Ctx) (st0 : Virtualizer) (s0 : ℚ)
    (st1 : Virtualizer)
    (h : (initialRender C st0 s0).map Prod.fst = some st1) :
    st1 = renderRows C st0 st0.rowCursor := by
  simp only [initialRender] at h
  rcases Option.map_eq_some'.mp h with ⟨pr, hpr, hfst⟩
  rcases Option.map_eq_some'.mp hpr with ⟨ls0, -, hpr2⟩
  rw [← hfst, ← hpr2]

/-- C3: after `initialRender` on an empty window and any sequence of
`scroll` calls, a handle for index `totalRowCount - 1` is the last
element of the materialized window; moreover `renderRows` preserves the
last handle itself (same object, it is popped before the destroy loop
and re-appended) and never destroys it. -/
theorem anchor_persistence (C : Ctx) (st0 st1 : Virtualizer) (s0 : ℚ)
    (evs : List (ℚ × ℚ)) (st2 : Virtualizer)
    (h0 : st0.rows = [])
    (h1 : (initialRender C st0 s0).map Prod.fst = some st1)
    (h2 : scrollSeq C st1 evs = some st2) :
    (st2.rows.map DataGridRow.index).getLast? = some (C.rowCount - 1) ∧
    (∀ st : Virtualizer, ∀ c : ℤ, st.rows ≠ [] →
      (renderRows C st c).rows.getLast? = st.rows.getLast?) ∧
    (∀ st : Virtualizer, ∀ hnd : DataGridRow,
      (st.rows.map DataGridRow.uid).Nodup → st.rows.getLast? = some hnd →
      hnd ∉ renderRowsDestroyed C st) := by
  refine ⟨?_, ?_, ?_⟩
  · have hst1 : st1 = renderRows C st0 st0.rowCursor :=
      initialRender_fst C st0 s0 st1 h1
    refine scrollSeq_preserves_anchorIdx C evs st1 st2 h2 ?_
    rw [hst1]
    exact anchorIdx_renderRows C st0 _ (Or.inl h0)
  · intro st c hne
    cases hr : st.rows.getLast? with
    | none => exact absurd (List.getLast?_eq_none_iff.mp hr) hne
    | some rr =>
      rw [renderRows_getLast, anchorRow_of_ne_nil C st rr hr]
  · intro st hnd hnodup hlast hmem
    have hne : st.rows ≠ [] := by
      intro hn
      rw [hn] at hlast
      cases hlast
    have hemp : ¬(st.rows.isEmpty = true) := by simpa using hne
    have hdest : renderRowsDestroyed C st = st.rows.dropLast := by
      unfold renderRowsDestroyed lazyRows
      rw [if_neg hemp]
    rw [hdest] at hmem
    have hget : st.rows.getLast hne = hnd := by
      have := List.getLast?_eq_getLast st.rows hne
      rw [hlast] at this
      exact (Option.some.injEq _ _).mp this.symm
    have hsplit : st.rows.dropLast ++ [hnd] = st.rows := by
      rw [← hget]
      exact List.dropLast_concat_getLast hne
    have hmapsplit : (st.rows.dropLast.map DataGridRow.uid) ++ [hnd.uid] =
        st.rows.map DataGridRow.uid := by
      conv_rhs => rw [← hsplit]
      rw [List.map_append]
      rfl
    rw [← hmapsplit] at hnodup
    have hnotin : hnd.uid ∉ st.rows.dropLast.map DataGridRow.uid := by
      intro hin
      have := List.disjoint_of_nodup_append hnodup
      exact this hin (by simp)
    exact hnotin (List.mem_map_of_mem DataGridRow.uid hmem)

/-- The state reached from the scenario `initialRender` state by a
`scroll` to offset 500 (rows `23..37` plus the preserved anchor). -/
def st1000b : Virtualizer := ⟨freshRows 14 (intRange 23 37) ++ [⟨999, 0⟩], 25, 29⟩

theorem renderRows_ctx1000_at25 :
    renderRows ctx1000 st1000 25 = { st1000b with rowCursor := 0 } := by
  simp only [renderRows, renderFrom, renderTo, rowsPerPage_ctx1000]
  decide

/-- Evaluation of the scenario `scroll` to offset 500: it succeeds and
its post state is `st1000b`. -/
theorem scroll1000_fst :
    (scroll ctx1000 st1000 500 500).map Prod.fst = some st1000b := by
  have hc : ⌊(500 : ℚ) / ctx1000.defaultRowHeight⌋ = (25 : ℤ) := by
    norm_num [ctx1000]
  simp only [scroll, hc]
  rw [if_pos (by decide : st1000.rowCursor ≠ (25 : ℤ))]
  rw [renderRows_ctx1000_at25]
  rw [adjustRowHeights, if_neg (by decide : ¬(st1000b.rows.isEmpty = true))]
  simp only [Option.map_some']
  decide

theorem scrollSeq1000 : scrollSeq ctx1000 st1000 [(500, 500)] = some st1000b := by
  rcases Option.map_eq_some'.mp scroll1000_fst with ⟨pr, hpr, hfst⟩
  rcases pr with ⟨stp, offp, lsp⟩
  simp only [scrollSeq, hpr]
  simp only at hfst
  rw [hfst]

/-- C3 witness: in the scenario configuration, after `initialRender`
and a scroll to offset 500 the last materialized handle has index
`totalRowCount - 1 = 999`. -/
theorem anchor_persistence_witness :
    (st1000b.rows.map DataGridRow.index).getLast? =
      some (ctx1000.rowCount - 1) :=
  (anchor_persistence ctx1000 initState st1000 0 [(500, 500)] st1000b
    rfl initialRender_ctx1000 scrollSeq1000).1

/-! ### C4: bounded materialization -/

/-- C4 counterexample: in the scenario configuration the scroll to
offset 500 (the specification's own scenario) materializes 16 handles,
exceeding the claimed bound `rowsPerPage + 2*buffer + 1 = 15`. -/
theorem window_size_bound_cex :
    (initialRender ctx1000 initState 0).map Prod.fst = some st1000 ∧
    (scroll ctx1000 st1000 500 500).map (fun pr => pr.1.rows.length) =
      some 16 ∧
    ¬((16 : ℤ) ≤ rowsPerPage ctx1000 + 2 * ctx1000.buffer + 1) := by
  refine ⟨initialRender_ctx1000, ?_, ?_⟩
  · rcases Option.map_eq_some'.mp scroll1000_fst with ⟨pr, hpr, hfst⟩
    rw [hpr]
    simp only [Option.map_some']
    rw [show pr.1 = st1000b from hfst]
    decide
  · rw [rowsPerPage_ctx1000]
    decide

/-- C4 amended: the number of handles in the materialized window
(including the anchor) is at most `rowsPerPage + 2*buffer + 2`,
independent of `totalRowCount`: the inclusive run `from..to` holds up
to `rowsPerPage + 2*buffer + 1` handles, plus one for the anchor.  The
bound is established by `renderRows` (hence by `initialRender`) and
preserved by every successful `scroll`. -/
theorem window_size_bound (C : Ctx)
    (hb : 0 ≤ C.buffer) (hH : 0 ≤ C.offsetHeight)
    (hd : 0 < C.defaultRowHeight) :
    (∀ st : Virtualizer, ∀ c : ℤ,
      (st.rows = [] ∨
        (st.rows.map DataGridRow.index).getLast? = some (C.rowCount - 1)) →
      ((renderRows C st c).rows.length : ℤ) ≤
        rowsPerPage C + 2 * C.buffer + 2) ∧
    (∀ st0 : Virtualizer, ∀ s0 : ℚ, ∀ st1 : Virtualizer, st0.rows = [] →
      (initialRender C st0 s0).map Prod.fst = some st1 →
      ((st1.rows.length : ℤ) ≤ rowsPerPage C + 2 * C.buffer + 2)) ∧
    (∀ st : Virtualizer, ∀ s r : ℚ, ∀ st' : Virtualizer,
      (scroll C st s r).map Prod.fst = some st' →
      (st.rows = [] ∨
        (st.rows.map DataGridRow.index).getLast? = some (C.rowCount - 1)) →
      ((st.rows.length : ℤ) ≤ rowsPerPage C + 2 * C.buffer + 2) →
      ((st'.rows.length : ℤ) ≤ rowsPerPage C + 2 * C.buffer + 2)) := by
  have hp : 0 ≤ rowsPerPage C := Int.ceil_nonneg (div_nonneg hH hd.le)
  have hcore : ∀ st : Virtualizer, ∀ c : ℤ,
      (st.rows = [] ∨
        (st.rows.map DataGridRow.index).getLast? = some (C.rowCount - 1)) →
      ((renderRows C st c).rows.length : ℤ) ≤
        rowsPerPage C + 2 * C.buffer + 2 := by
    intro st c ha
    have hidx : (anchorRow C st).index = C.rowCount - 1 := anchorRow_index C st ha
    have hlen : ((renderRows C st c).rows.length : ℤ) =
        ((renderTo C st c + 1 - renderFrom C c).toNat : ℤ) + 1 := by
      rw [renderRows_rows, List.length_append, freshRows_length,
        intRange_length]
      simp only [List.length_singleton]
      push_cast
      omega
    have hfd : renderFrom C c =
        min (max (c - C.buffer) 0) (C.rowCount - rowsPerPage C) := rfl
    have htd : renderTo C st c =
        min (c + rowsPerPage C + C.buffer) (C.rowCount - 1 - 1) := by
      unfold renderTo
      rw [hidx]
    omega
  refine ⟨hcore, ?_, ?_⟩
  · intro st0 s0 st1 h0 h1
    rw [initialRender_fst C st0 s0 st1 h1]
    exact hcore st0 st0.rowCursor (Or.inl h0)
  · intro st s r st' hmap ha hpre
    rcases Option.map_eq_some'.mp hmap with ⟨pr, hpr, hfst⟩
    rcases pr with ⟨sta, offa, lsa⟩
    obtain ⟨-, hrows, -, -, -⟩ :=
      scroll_some_elim C st s r sta offa lsa hpr
    simp only at hfst
    rw [← hfst, hrows]
    by_cases hmove : st.rowCursor ≠ ⌊s / C.defaultRowHeight⌋
    · rw [if_pos hmove]
      exact hcore st _ ha
    · rw [if_neg hmove]
      exact hpre

/-- C4 witness: the amended bound applied in the scenario
configuration at cursor 25: the window holds 16 handles, within
`rowsPerPage + 2*buffer + 2 = 16`. -/
theorem window_size_bound_witness :
    ((renderRows ctx1000 st1000 25).rows.length : ℤ) ≤
      rowsPerPage ctx1000 + 2 * ctx1000.buffer + 2 :=
  (window_size_bound ctx1000 (by decide) (by norm_num [ctx1000])
    (by norm_num [ctx1000])).1 st1000 25 (Or.inr (by decide))

/-! ### C7: the scroll-offset floor correction -/

/-- A `scroll` call succeeds whenever the window is non-empty or the
cursor moves (in which case `renderRows` makes the window
non-empty). -/
theorem scroll_isSome (C : Ctx) (st : Virtualizer) (s r : ℚ)
    (h : st.rows ≠ [] ∨ st.rowCursor ≠ ⌊s / C.defaultRowHeight⌋) :
    (scroll C st s r).isSome = true := by
  simp only [scroll]
  by_cases hmove : st.rowCursor ≠ ⌊s / C.defaultRowHeight⌋
  · have hne2 : ¬((renderRows C st ⌊s / C.defaultRowHeight⌋).rows.isEmpty
        = true) := by
      simpa using renderRows_rows_ne_nil C st (⌊s / C.defaultRowHeight⌋)
    rw [if_pos hmove, adjustRowHeights, if_neg hne2]
    simp
  · rcases h with hne | hne
    · rw [if_neg hmove, adjustRowHeights,
        if_neg (show ¬(st.rows.isEmpty = true) by simpa using hne)]
      simp
    · exact absurd hne hmove

/-- C7: after every successful `scroll` call the final scroll offset is
at least the pre-call offset `s`: when the reported post-render offset
`r` decreased below `s` it is forcibly restored to exactly `s`, and
when `r ≥ s` no correction is applied. -/
theorem scroll_offset_floor (C : Ctx) (st : Virtualizer) (s r off : ℚ)
    (h : (scroll C st s r).map (fun pr => pr.2.1) = some off) :
    s ≤ off ∧ (r < s → off = s) ∧ (s ≤ r → off = r) := by
  rcases Option.map_eq_some'.mp h with ⟨pr, hpr, hproj⟩
  rcases pr with ⟨sta, offa, lsa⟩
  obtain ⟨-, -, -, hoff, -⟩ := scroll_some_elim C st s r sta offa lsa hpr
  simp only at hproj
  rw [← hproj, hoff]
  by_cases hc : r < s
  · rw [if_pos hc]
    exact ⟨le_refl s, fun _ => rfl, fun hs => absurd hc (not_lt.mpr hs)⟩
  · rw [if_neg hc]
    push_neg at hc
    exact ⟨hc, fun hr => absurd hr (not_lt.mpr hc), fun _ => rfl⟩

/-- C7 witness: scrolling the scenario state with pre-call offset 500
and a reported post-render offset 480 (the surface fought back) yields
a corrected final offset of at least 500, equal to 500. -/
theorem scroll_offset_floor_witness :
    ∃ off : ℚ, (scroll ctx1000 st1000 500 480).map (fun pr => pr.2.1) =
      some off ∧ (500 : ℚ) ≤ off ∧ off = 500 := by
  have hsome : (scroll ctx1000 st1000 500 480).isSome = true := by
    refine scroll_isSome ctx1000 st1000 500 480 (Or.inl ?_)
    decide
  rcases Option.isSome_iff_exists.mp hsome with ⟨pr, hpr⟩
  have hmap : (scroll ctx1000 st1000 500 480).map (fun pr => pr.2.1) =
      some pr.2.1 := by
    rw [hpr]
    rfl
  have h := scroll_offset_floor ctx1000 st1000 500 480 pr.2.1 hmap
  exact ⟨pr.2.1, hmap, h.1, h.2.1 (by norm_num)⟩

/-! ### C2: contiguity and cursor bracketing -/

/-- The state reached from the scenario `initialRender` state by a
`scroll` to offset 19980 (cursor 999, rows `990..998` plus anchor). -/
def st1000c : Virtualizer := ⟨freshRows 14 (intRange 990 998) ++ [⟨999, 0⟩], 999, 23⟩

theorem renderRows_ctx1000_at999 :
    renderRows ctx1000 st1000 999 = { st1000c with rowCursor := 0 } := by
  simp only [renderRows, renderFrom, renderTo, rowsPerPage_ctx1000]
  decide

/-- C2 counterexample: scrolling the scenario state to offset
`19980 = 999 * 20` puts the cursor at 999 while the materialized run
(excluding the anchor) ends at `to = 998`, so `cursor ≤ to` fails: the
claimed bracketing does not hold for every scroll offset. -/
theorem contiguity_cursor_bound_cex :
    (scroll ctx1000 st1000 19980 19980).map
        (fun pr => (pr.1.rowCursor,
          (pr.1.rows.dropLast.map DataGridRow.index).getLast?)) =
      some (999, some 998) ∧
    ¬((999 : ℤ) ≤ 998) := by
  constructor
  · have hc : ⌊(19980 : ℚ) / ctx1000.defaultRowHeight⌋ = (999 : ℤ) := by
      norm_num [ctx1000]
    simp only [scroll, hc]
    rw [if_pos (by decide : st1000.rowCursor ≠ (999 : ℤ))]
    rw [renderRows_ctx1000_at999]
    rw [adjustRowHeights, if_neg (by decide :
      ¬(({ st1000c with rowCursor := 0 } : Virtualizer).rows.isEmpty = true))]
    simp only [Option.map_some']
    decide
  · decide

/-- C2 amended: after every successful `scroll` whose new cursor is at
most `totalRowCount - 2` (given a non-negative offset, buffer and
viewport height, a positive default row height, the anchor invariant on
the pre-call window, and — when the cursor does not move, so that the
window is kept — the property for the pre-call state), and after
`initialRender` from an empty window with `totalRowCount ≥ 2`, the
materialized window minus the anchor is a strictly increasing
contiguous run `from..to` with `from ≤ cursor ≤ to`. -/
theorem window_contiguous_after (C : Ctx)
    (hb : 0 ≤ C.buffer) (hH : 0 ≤ C.offsetHeight)
    (hd : 0 < C.defaultRowHeight) :
    (∀ st : Virtualizer, ∀ s r : ℚ, ∀ st' : Virtualizer,
      (scroll C st s r).map Prod.fst = some st' →
      0 ≤ s → ⌊s / C.defaultRowHeight⌋ ≤ C.rowCount - 2 →
      (st.rows = [] ∨
        (st.rows.map DataGridRow.index).getLast? = some (C.rowCount - 1)) →
      (st.rowCursor = ⌊s / C.defaultRowHeight⌋ → windowContiguous st) →
      windowContiguous st') ∧
    (∀ st0 : Virtualizer, ∀ s0 : ℚ, ∀ st1 : Virtualizer,
      st0.rows = [] → st0.rowCursor = 0 → 2 ≤ C.rowCount →
      (initialRender C st0 s0).map Prod.fst = some st1 →
      windowContiguous st1) := by
  have hp : 0 ≤ rowsPerPage C := Int.ceil_nonneg (div_nonneg hH hd.le)
  constructor
  · intro st s r st' hmap hs hcN ha hkeep
    rcases Option.map_eq_some'.mp hmap with ⟨pr, hpr, hfst⟩
    rcases pr with ⟨sta, offa, lsa⟩
    obtain ⟨hcur, hrows, -, -, -⟩ := scroll_some_elim C st s r sta offa lsa hpr
    simp only at hfst
    have hc0 : (0 : ℤ) ≤ ⌊s / C.defaultRowHeight⌋ :=
      Int.floor_nonneg.mpr (div_nonneg hs hd.le)
    unfold windowContiguous
    rw [← hfst]
    by_cases hmove : st.rowCursor ≠ ⌊s / C.defaultRowHeight⌋
    · rw [if_pos hmove] at hrows
      unfold runContiguous
      rw [hrows, hcur]
      exact runContiguous_renderRows C st _ hb hp hc0 hcN ha
    · rw [if_neg hmove] at hrows
      push_neg at hmove
      unfold runContiguous
      rw [hrows, hcur, ← hmove]
      exact hkeep hmove
  · intro st0 s0 st1 h0 hcur0 hN h1
    have hst1 : st1 = renderRows C st0 st0.rowCursor :=
      initialRender_fst C st0 s0 st1 h1
    unfold windowContiguous runContiguous
    rw [hst1]
    have hrc : (renderRows C st0 st0.rowCursor).rowCursor = st0.rowCursor := rfl
    rw [hrc, hcur0]
    have := runContiguous_renderRows C st0 0 hb hp (le_refl 0) (by omega)
      (Or.inl h0)
    unfold runContiguous at this
    exact this

/-- C2 witness: the amended statement at the scenario scroll to offset
500 (cursor 25, run `23..37`). -/
theorem window_contiguous_after_witness : windowContiguous st1000b := by
  refine (window_contiguous_after ctx1000 (by decide) (by norm_num [ctx1000])
    (by norm_num [ctx1000])).1 st1000 500 500 st1000b scroll1000_fst
    (by norm_num) ?_ (Or.inr (by decide)) ?_
  · norm_num [ctx1000]
  · intro heq
    have : ¬(st1000.rowCursor = ⌊(500 : ℚ) / ctx1000.defaultRowHeight⌋) := by
      norm_num [ctx1000, st1000]
    exact absurd heq this

/-! ### C8: the `scroll` transition -/

/-- A small configuration for exercising the cursor handover to
`adjustRowHeights`: one-row page, no buffer, row 25 twice the default
height. -/
def ctx8 : Ctx := ⟨30, 20, 20, 0, fun i => if i = 25 then 40 else 20, 0, 0⟩

/-- A pre-call state for `ctx8`: anchor-only window, stored cursor 24. -/
def st8 : Virtualizer := ⟨[⟨29, 0⟩], 24, 1⟩

/-- The window after re-rendering `ctx8`/`st8` at cursor 25. -/
def st8b : Virtualizer := ⟨[⟨25, 1⟩, ⟨26, 2⟩, ⟨29, 0⟩], 25, 3⟩

/-- The layouts assigned when `adjustRowHeights` observes cursor 25 at
offset 510: the cursor row 25 is shrunk from 40 to 30 and its cells
translated by -10. -/
def ls8new : List RowLayout :=
  [⟨25, 30, -10, none⟩, ⟨26, 20, 0, some 30⟩, ⟨29, 20, 0, none⟩]

/-- The layouts that `adjustRowHeights` would assign if it observed the
previous cursor 24: row 25 would keep its natural height 40. -/
def ls8old : List RowLayout :=
  [⟨25, 40, 0, none⟩, ⟨26, 20, 0, some 40⟩, ⟨29, 20, 0, none⟩]

theorem rowsPerPage_ctx8 : rowsPerPage ctx8 = 1 := by
  norm_num [rowsPerPage, ctx8]

theorem renderRows_ctx8 :
    renderRows ctx8 st8 25 = { st8b with rowCursor := 24 } := by
  simp only [renderRows, renderFrom, renderTo, rowsPerPage_ctx8]
  decide

theorem adjust8new : adjustRowHeights ctx8 510 25 st8b.rows = some ls8new := by
  rw [adjustRowHeights, if_neg (by decide : ¬(st8b.rows.isEmpty = true))]
  congr 1
  rw [show List.range st8b.rows.length = [0, 1, 2] from by decide]
  simp only [List.map_cons, List.map_nil]
  norm_num [adjustedHeight, cellTranslateOf, rowTranslate, ctx8, st8b, ls8new,
    List.getD_cons_zero, List.getD_cons_succ]

theorem adjust8old : adjustRowHeights ctx8 510 24 st8b.rows = some ls8old := by
  rw [adjustRowHeights, if_neg (by decide : ¬(st8b.rows.isEmpty = true))]
  congr 1
  rw [show List.range st8b.rows.length = [0, 1, 2] from by decide]
  simp only [List.map_cons, List.map_nil]
  norm_num [adjustedHeight, cellTranslateOf, rowTranslate, ctx8, st8b, ls8old,
    List.getD_cons_zero, List.getD_cons_succ]

/-- The layout list produced inside the `ctx8` scroll call. -/
theorem scroll8_third :
    (scroll ctx8 st8 510 510).map (fun pr => pr.2.2) = some ls8new := by
  have hc : ⌊(510 : ℚ) / ctx8.defaultRowHeight⌋ = (25 : ℤ) := by
    norm_num [ctx8]
  simp only [scroll, hc]
  rw [if_pos (by decide : st8.rowCursor ≠ (25 : ℤ))]
  rw [renderRows_ctx8]
  dsimp only
  rw [adjust8new]
  rfl

/-- C8 counterexample: in the `ctx8` scenario the layouts produced by
`scroll` are those of `adjustRowHeights` run with the *new* cursor 25
(the field is stored before the reconciliation call, line 134 before
line 137), not those it would produce with the previous cursor 24: the
claim's parenthetical "ReconcileHeights observes the previous cursor
value" is false. -/
theorem scroll_reconcile_cursor_cex :
    (scroll ctx8 st8 510 510).map (fun pr => pr.2.2) =
      adjustRowHeights ctx8 510 25 (renderRows ctx8 st8 25).rows ∧
    (scroll ctx8 st8 510 510).map (fun pr => pr.2.2) ≠
      adjustRowHeights ctx8 510 st8.rowCursor (renderRows ctx8 st8 25).rows := by
  constructor
  · rw [scroll8_third, renderRows_ctx8]
    dsimp only
    rw [adjust8new]
  · rw [scroll8_third, renderRows_ctx8]
    dsimp only
    rw [show st8.rowCursor = (24 : ℤ) from rfl, adjust8old]
    decide

/-- C8 amended: `scroll` computes `newCursor =
floor(scrollOffset / defaultRowHeight)`; if it equals the stored
cursor the window is left untouched, otherwise `renderRows(newCursor)`
runs; in both cases the cursor field is then set to `newCursor` and
`adjustRowHeights` runs afterwards, observing the *new* cursor value
(not the previous one). -/
theorem scroll_transition_spec (C : Ctx) (st : Virtualizer) (s r : ℚ)
    (h : (scroll C st s r).isSome = true) :
    ∃ st' : Virtualizer, ∃ off : ℚ, ∃ ls : List RowLayout,
      scroll C st s r = some (st', off, ls) ∧
      st'.rowCursor = ⌊s / C.defaultRowHeight⌋ ∧
      (st.rowCursor = ⌊s / C.defaultRowHeight⌋ → st'.rows = st.rows) ∧
      (st.rowCursor ≠ ⌊s / C.defaultRowHeight⌋ →
        st'.rows = (renderRows C st ⌊s / C.defaultRowHeight⌋).rows) ∧
      adjustRowHeights C r ⌊s / C.defaultRowHeight⌋ st'.rows = some ls := by
  rcases Option.isSome_iff_exists.mp h with ⟨pr, hpr⟩
  rcases pr with ⟨st', off, ls⟩
  obtain ⟨h1, h2, -, -, h5⟩ := scroll_some_elim C st s r st' off ls hpr
  refine ⟨st', off, ls, hpr, h1, ?_, ?_, h5⟩
  · intro heq
    rw [h2, if_neg (fun hcon => hcon heq)]
  · intro hne
    rw [h2, if_pos hne]

/-- C8 witness: the amended transition at the `ctx8` scenario (cursor
moves from 24 to 25). -/
theorem scroll_transition_spec_witness :
    ∃ st' : Virtualizer, ∃ off : ℚ, ∃ ls : List RowLayout,
      scroll ctx8 st8 510 510 = some (st', off, ls) ∧
      st'.rowCursor = ⌊(510 : ℚ) / ctx8.defaultRowHeight⌋ ∧
      (st8.rowCursor = ⌊(510 : ℚ) / ctx8.defaultRowHeight⌋ →
        st'.rows = st8.rows) ∧
      (st8.rowCursor ≠ ⌊(510 : ℚ) / ctx8.defaultRowHeight⌋ →
        st'.rows = (renderRows ctx8 st8 ⌊(510 : ℚ) /
          ctx8.defaultRowHeight⌋).rows) ∧
      adjustRowHeights ctx8 510 ⌊(510 : ℚ) / ctx8.defaultRowHeight⌋ st'.rows =
        some ls :=
  scroll_transition_spec ctx8 st8 510 510
    (scroll_isSome ctx8 st8 510 510 (Or.inl (by decide)))

/-! ### C6: the height-reconciliation formulas -/

theorem adjustedHeight_cursor (C : Ctx) (s : ℚ) (c idx : ℤ)
    (heq : idx = c) (hlt : C.defaultRowHeight < C.natHeight idx) :
    adjustedHeight C s c idx =
      ((⌊C.natHeight idx - (C.natHeight idx - C.defaultRowHeight) *
          (s / C.defaultRowHeight - (c : ℚ))⌋ : ℤ) : ℚ) := by
  subst heq
  unfold adjustedHeight
  rw [if_neg (lt_irrefl idx), if_neg (lt_irrefl idx), if_pos hlt]

theorem adjustedHeight_below (C : Ctx) (s : ℚ) (c idx : ℤ) (hlt : idx < c) :
    adjustedHeight C s c idx = C.defaultRowHeight := by
  unfold adjustedHeight
  rw [if_pos hlt]

theorem adjustedHeight_above (C : Ctx) (s : ℚ) (c idx : ℤ) (hlt : c < idx) :
    adjustedHeight C s c idx = C.natHeight idx := by
  unfold adjustedHeight
  rw [if_neg (by omega), if_pos hlt]

theorem cellTranslateOf_cursor (C : Ctx) (s : ℚ) (c idx : ℤ)
    (heq : idx = c) (hlt : C.defaultRowHeight < C.natHeight idx) :
    cellTranslateOf C s c idx = adjustedHeight C s c idx - C.natHeight idx := by
  unfold cellTranslateOf
  rw [if_pos ⟨heq, hlt⟩]

/-- C6: in `adjustRowHeights` at scroll offset `s` and cursor `c`, the
row whose index equals the cursor and whose natural measured height `h`
strictly exceeds the default `d` gets applied height
`floor(h - (h - d) * (s / d - c))` and its cells are translated by
(applied height - h); rows strictly below the cursor are pinned to `d`;
rows strictly above keep their natural measured height. -/
theorem adjustRowHeights_spec (C : Ctx) (s : ℚ) (c : ℤ)
    (rows : List DataGridRow) (ls : List RowLayout)
    (h : adjustRowHeights C s c rows = some ls) :
    ls.length = rows.length ∧
    ∀ i : ℕ, i < rows.length →
      (((rows.getD i ⟨0, 0⟩).index = c →
        C.defaultRowHeight < C.natHeight (rows.getD i ⟨0, 0⟩).index →
        (ls.getD i ⟨0, 0, 0, none⟩).height =
          ((⌊C.natHeight (rows.getD i ⟨0, 0⟩).index -
              (C.natHeight (rows.getD i ⟨0, 0⟩).index -
                C.defaultRowHeight) *
                (s / C.defaultRowHeight - (c : ℚ))⌋ : ℤ) : ℚ) ∧
        (ls.getD i ⟨0, 0, 0, none⟩).cellTranslate =
          (ls.getD i ⟨0, 0, 0, none⟩).height -
            C.natHeight (rows.getD i ⟨0, 0⟩).index) ∧
      ((rows.getD i ⟨0, 0⟩).index < c →
        (ls.getD i ⟨0, 0, 0, none⟩).height = C.defaultRowHeight) ∧
      (c < (rows.getD i ⟨0, 0⟩).index →
        (ls.getD i ⟨0, 0, 0, none⟩).height =
          C.natHeight (rows.getD i ⟨0, 0⟩).index)) := by
  by_cases hemp : rows.isEmpty = true
  · rw [adjustRowHeights, if_pos hemp] at h
    cases h
  · rw [adjustRowHeights, if_neg hemp] at h
    injection h with hls
    subst hls
    have hget : ∀ i : ℕ, i < rows.length →
        ∀ d : RowLayout,
        (((List.range rows.length).map fun i =>
          ({ index := (rows.getD i ⟨0, 0⟩).index
             height := adjustedHeight C s c (rows.getD i ⟨0, 0⟩).index
             cellTranslate := cellTranslateOf C s c (rows.getD i ⟨0, 0⟩).index
             translateY :=
               rowTranslate C
                 (rows.map fun r => adjustedHeight C s c r.index)
                 rows i } : RowLayout)).getD i d) =
          { index := (rows.getD i ⟨0, 0⟩).index
            height := adjustedHeight C s c (rows.getD i ⟨0, 0⟩).index
            cellTranslate := cellTranslateOf C s c (rows.getD i ⟨0, 0⟩).index
            translateY :=
              rowTranslate C
                (rows.map fun r => adjustedHeight C s c r.index) rows i } := by
      intro i hi d
      rw [List.getD_eq_getElem?_getD, List.getElem?_map,
        List.getElem?_range hi]
      rfl
    constructor
    · simp
    · intro i hi
      rw [hget i hi]
      refine ⟨fun heq hlt => ?_, fun hlt => ?_, fun hlt => ?_⟩
      · exact ⟨adjustedHeight_cursor C s c _ heq hlt, by
          rw [cellTranslateOf_cursor C s c _ heq hlt]⟩
      · exact adjustedHeight_below C s c _ hlt
      · exact adjustedHeight_above C s c _ hlt

/-- A configuration with a tall row at the cursor: row 24 has natural
height 35, row 25 (the cursor row) has natural height 40, others the
default 20. -/
def ctx6 : Ctx :=
  ⟨1000, 200, 20, 2, fun i => if i = 24 then 35 else if i = 25 then 40 else 20,
    0, 0⟩

/-- A three-row window around cursor 25. -/
def rows6 : List DataGridRow := [⟨24, 0⟩, ⟨25, 1⟩, ⟨26, 2⟩]

/-- The layouts assigned to `rows6` at offset 510, cursor 25. -/
def ls6 : List RowLayout :=
  [⟨24, 20, 0, none⟩, ⟨25, 30, -10, some 20⟩, ⟨26, 20, 0, some 50⟩]

theorem adjust6 : adjustRowHeights ctx6 510 25 rows6 = some ls6 := by
  rw [adjustRowHeights, if_neg (by decide : ¬(rows6.isEmpty = true))]
  congr 1
  rw [show List.range rows6.length = [0, 1, 2] from by decide]
  simp only [List.map_cons, List.map_nil]
  norm_num [adjustedHeight, cellTranslateOf, rowTranslate, ctx6, rows6, ls6,
    List.getD_cons_zero, List.getD_cons_succ]

/-- C6 witness: at `defaultRowHeight = 20`, offset 510, cursor 25, with
the cursor row's natural height 40, the applied height is 30 and the
cell translation is `30 - 40 = -10`; row 24 (natural height 35) is
pinned to 20 and row 26 keeps its natural height. -/
theorem adjustRowHeights_spec_witness :
    adjustRowHeights ctx6 510 25 rows6 = some ls6 ∧
    (ls6.getD 0 ⟨0, 0, 0, none⟩).height = ctx6.defaultRowHeight ∧
    (ls6.getD 1 ⟨0, 0, 0, none⟩).height = 30 ∧
    (ls6.getD 1 ⟨0, 0, 0, none⟩).cellTranslate =
      (ls6.getD 1 ⟨0, 0, 0, none⟩).height - ctx6.natHeight 25 ∧
    (ls6.getD 2 ⟨0, 0, 0, none⟩).height = ctx6.natHeight 26 := by
  have h := adjustRowHeights_spec ctx6 510 25 rows6 ls6 adjust6
  refine ⟨adjust6, ?_, by decide, ?_, ?_⟩
  · exact (h.2 0 (by decide)).2.1 (by decide)
  · exact ((h.2 1 (by decide)).1 (by decide) (by norm_num [ctx6, rows6])).2
  · exact (h.2 2 (by decide)).2.2 (by decide)

/-! ### C10: the non-empty-window precondition of `adjustRowHeights` -/

/-- C10: `adjustRowHeights` reads the first materialized row before any
emptiness check, so it succeeds exactly when the window is non-empty;
in particular a `scroll` whose cursor does not move while the window is
empty (so `renderRows` is skipped) faults instead of being a no-op. -/
theorem adjust_nonempty_precondition (C : Ctx) (s r : ℚ) (c : ℤ)
    (rows : List DataGridRow) (st : Virtualizer) :
    ((adjustRowHeights C s c rows).isSome = true ↔ rows ≠ []) ∧
    (st.rows = [] → st.rowCursor = ⌊s / C.defaultRowHeight⌋ →
      scroll C st s r = none) := by
  constructor
  · rw [adjustRowHeights]
    by_cases hemp : rows.isEmpty = true
    · rw [if_pos hemp]
      have : rows = [] := by simpa using hemp
      simp [this]
    · rw [if_neg hemp]
      have : rows ≠ [] := by simpa using hemp
      simp [this]
  · intro h1 h2
    simp only [scroll]
    rw [if_neg (fun hcon => hcon h2)]
    rw [h1, adjustRowHeights]
    simp

/-- C10 witness: `adjustRowHeights` succeeds on the non-empty scenario
window, and `scroll` on an empty window with an unchanged cursor
(offset 0, stored cursor 0) faults. -/
theorem adjust_nonempty_precondition_witness :
    ((adjustRowHeights ctx1000 0 0 st1000.rows).isSome = true ↔
      st1000.rows ≠ []) ∧
    scroll ctx1000 initState 0 0 = none := by
  constructor
  · exact (adjust_nonempty_precondition ctx1000 0 0 0 st1000.rows initState).1
  · exact (adjust_nonempty_precondition ctx1000 0 0 0 st1000.rows
      initState).2 rfl (by norm_num [ctx1000, initState])
